import Mathlib

/-!
Verification of the speed-comparison harness
(src/speed-comparison/speed-comparison.js).

The file shallowly embeds the harness: its port derivation (the main loop),
the client-mode promise pipeline (runAsClient / Promise.all), and the
statistics engine (the pure _calculate functions, _sort, _formatTimings).
JavaScript numbers are idealised as rationals, Math.sqrt as the real square
root; a promise that can reject is an Except value; a JS expression that can
be undefined or throw is an Option value.
-/

namespace SpeedComparison

/- ===================== Port derivation (lines 35-45, 258-271) ============ -/

/-- Line 262: the loop header is written with the literal 8000, not
START_PORT; the loop runs p = 8000, 8001, ... while p < START_PORT +
NUM_SPINUPS.  This is the list of loop values p, one per launched instance,
in launch order. -/
def spinupPorts (START_PORT NUM_SPINUPS : Nat) : List Nat :=
  List.range' 8000 (START_PORT + NUM_SPINUPS - 8000)

/-- The number of instances the main loop launches (in either mode). -/
def instancesLaunched (START_PORT NUM_SPINUPS : Nat) : Nat :=
  START_PORT + NUM_SPINUPS - 8000

/-- Lines 264 and 267: the instance driven by loop value p is given quic port
p, http port p + NUM_SPINUPS and websocket port p + NUM_SPINUPS * 2. -/
def portTriple (NUM_SPINUPS p : Nat) : Nat × Nat × Nat :=
  (p, p + NUM_SPINUPS, p + NUM_SPINUPS * 2)

/-- The port triples of all launched instances, in launch order. -/
def mainPortTriples (START_PORT NUM_SPINUPS : Nat) : List (Nat × Nat × Nat) :=
  (spinupPorts START_PORT NUM_SPINUPS).map (portTriple NUM_SPINUPS)

/- ===================== Statistics engine (lines 143-189) ================= -/

/-- JS Array.prototype.reduce without an initial value: on an empty array it
throws a TypeError (modelled as none); otherwise it folds from the left
starting from the first element. -/
def jsReduce1 (f : ℚ → ℚ → ℚ) : List ℚ → Option ℚ
  | [] => none
  | x :: xs => some (xs.foldl f x)

/-- Lines 143-146: sum by reduce without an initial value, divided by the
length. -/
def _calculateMean (nums : List ℚ) : Option ℚ :=
  (jsReduce1 (fun sum num => sum + num) nums).map (fun sum => sum / nums.length)

/-- Lines 148-151: the element at index floor(length / 2); undefined (none)
when the index is out of range. -/
def _calculateMedian (nums : List ℚ) : Option ℚ :=
  nums[nums.length / 2]?

/-- Lines 153-155: the element at index length - 1 (undefined on empty). -/
def _calculateHigh (nums : List ℚ) : Option ℚ :=
  nums[nums.length - 1]?

/-- Lines 157-159: the element at index 0 (undefined on empty). -/
def _calculateLow (nums : List ℚ) : Option ℚ :=
  nums[0]?

/-- Lines 161-167: reduce with initial value 0 over squared deviations from
the given mean, divided by the length.  (On an empty array JS would produce
NaN from 0/0; in the rational idealisation division by zero gives 0.  All
claims about variance assume a non-empty sample.) -/
def _calculateVariance (mean : ℚ) (nums : List ℚ) : ℚ :=
  (nums.foldl (fun variance num => (num - mean) ^ 2 + variance) 0) / nums.length

/-- Lines 169-173: Math.sqrt of the population variance at the mean.  The
mean is undefined on an empty array (it throws), hence so is the standard
deviation. -/
noncomputable def _calculateStdDev (nums : List ℚ) : Option ℝ :=
  (_calculateMean nums).map (fun mean => Real.sqrt ((_calculateVariance mean nums : ℚ) : ℝ))

/-- Lines 175-177: Array.prototype.slice(-5), the last five elements (the
whole array when it has fewer than five). -/
def _getHighFive (nums : List ℚ) : List ℚ :=
  nums.drop (nums.length - 5)

/-- Lines 179-181: Array.prototype.slice(0, 5), the first five elements. -/
def _getLowFive (nums : List ℚ) : List ℚ :=
  nums.take 5

/-- Lines 183-189 model, generalised over the element type: the comparator
returns -1, 1 or 0 according as a < b, a > b or a = b, which orders the array
ascending by the non-strict relation le; ECMAScript requires
Array.prototype.sort to be stable, and merge sort is a stable sort for le. -/
def jsSortBy (α : Type) (le : α → α → Bool) (arr : List α) : List α :=
  arr.mergeSort le

/-- Lines 183-189: the harness sorts its duration arrays ascending. -/
def _sort (nums : List ℚ) : List ℚ :=
  jsSortBy ℚ (fun a b => decide (a ≤ b)) nums

/-- The same sort applied to array elements tagged with their original
position, comparing only the numeric component, exactly as the line 184
comparator does; used to state stability of the line 183 sort. -/
def sortTagged (arr : List (ℚ × ℕ)) : List (ℚ × ℕ) :=
  jsSortBy (ℚ × ℕ) (fun a b => decide (a.1 ≤ b.1)) arr

/- ===================== Reporter (lines 191-256) ========================== -/

/-- The per-transport fields of the record assembled at lines 228-253. -/
structure TransportStats where
  responses : List ℚ
  mean : ℚ
  median : ℚ
  high : ℚ
  low : ℚ
  stdDev : ℝ
  highFive : List ℚ
  lowFive : List ℚ

/-- Lines 200-226 for one transport column: every statistic of the sorted
responses.  Any statistic that is undefined in JS (which happens exactly when
the input is empty: reduce throws, indexing yields undefined) makes the whole
record unavailable. -/
noncomputable def statsOf (sorted : List ℚ) : Option TransportStats := do
  let mean ← _calculateMean sorted
  let median ← _calculateMedian sorted
  let high ← _calculateHigh sorted
  let low ← _calculateLow sorted
  let stdDev ← _calculateStdDev sorted
  pure ⟨sorted, mean, median, high, low, stdDev, _getHighFive sorted, _getLowFive sorted⟩

/-- Lines 191-256: project the timing triples into the three per-transport
columns (the Number() coercion at lines 192-194 is the identity on numbers),
sort each column, and compute every statistic of each column.  In the source
the three columns are interleaved statistic-by-statistic; all three columns
have the same length, so computing column-by-column is equivalent and the
first statistic to throw on an empty run is still the mean. -/
noncomputable def _formatTimings (timings : List (ℚ × ℚ × ℚ)) :
    Option (TransportStats × TransportStats × TransportStats) := do
  let sortedQuicResponses := _sort (timings.map (fun t => t.1))
  let sortedHttpResponses := _sort (timings.map (fun t => t.2.1))
  let sortedWSResponses := _sort (timings.map (fun t => t.2.2))
  let q ← statsOf sortedQuicResponses
  let h ← statsOf sortedHttpResponses
  let w ← statsOf sortedWSResponses
  pure (q, h, w)

/- ===================== Client mode (lines 92-135, 258-271) =============== -/

/-- The environment a client-mode run observes: the file system (line 93
readFileSync), the DATA_SIZE configuration (line 43), the response each
transport delivers for a request on a given port, and the values the line 48
clock returns at each operation's dispatch and completion.  Keying responses
and timestamps by port is faithful because each launched instance targets its
own ports. -/
structure ClientEnv where
  fsRead : String → String
  DATA_SIZE : String
  quicResp : Nat → String
  httpResp : Nat → String
  wsResp : Nat → String
  quicStart : Nat → ℚ
  quicFinish : Nat → ℚ
  httpStart : Nat → ℚ
  httpFinish : Nat → ℚ
  wsStart : Nat → ℚ
  wsFinish : Nat → ℚ

/-- Line 93: the payload file path is the DATA_SIZE string followed by kb. -/
def dataFile (DATA_SIZE : String) : String :=
  DATA_SIZE ++ "kb"

/-- Line 93: every call of runAsClient rereads the payload file; the data a
given call sends is the current content of that file.  The underscore
parameter records that the read happens once per instance launch. -/
def runAsClientData (env : ClientEnv) (_quicPort : Nat) : String :=
  env.fsRead (dataFile env.DATA_SIZE)

/-- Lines 95-104: the quic promise records a start time, sends data, and on
the response rejects when the response differs from data, else resolves with
the elapsed time.  In the source the resolve call follows the reject without
an else, but a JS promise keeps only its first settlement, so a mismatching
response leaves the promise rejected. -/
def quicPromise (env : ClientEnv) (data : String) (quicPort : Nat) : Except String ℚ :=
  if env.quicResp quicPort ≠ data then Except.error "QUIC received wrong response"
  else Except.ok (env.quicFinish quicPort - env.quicStart quicPort)

/-- Lines 106-119: the http promise, same shape as the quic one. -/
def httpPromise (env : ClientEnv) (data : String) (httpPort : Nat) : Except String ℚ :=
  if env.httpResp httpPort ≠ data then Except.error "HTTP received wrong response"
  else Except.ok (env.httpFinish httpPort - env.httpStart httpPort)

/-- Lines 121-132: the websocket promise, same shape as the quic one. -/
def wsPromise (env : ClientEnv) (data : String) (wsPort : Nat) : Except String ℚ :=
  if env.wsResp wsPort ≠ data then Except.error "WS received wrong response"
  else Except.ok (env.wsFinish wsPort - env.wsStart wsPort)

/-- JS Promise.all: fulfils with the list of fulfilment values in positional
order once every promise fulfils, and rejects as soon as any promise rejects.
(JS rejects with the temporally first rejection; here the rejection value is
determinized to the positionally first one — every theorem below uses only
whether the result is a rejection, never which reason it carries.) -/
def promiseAll {α : Type} : List (Except String α) → Except String (List α)
  | [] => Except.ok []
  | p :: ps => do
    let v ← p
    let vs ← promiseAll ps
    pure (v :: vs)

/-- Lines 92-135: read the payload, build the three transport promises, and
join them with Promise.all into one timing triple. -/
def runAsClient (env : ClientEnv) (quicPort httpPort wsPort : Nat) :
    Except String (ℚ × ℚ × ℚ) := do
  let data := runAsClientData env quicPort
  let q ← quicPromise env data quicPort
  let h ← httpPromise env data httpPort
  let w ← wsPromise env data wsPort
  pure (q, h, w)

/-- Lines 258-271, client branch: for each loop value p launch
runAsClient(p, p + NUM_SPINUPS, p + NUM_SPINUPS * 2), collect the promises in
launch order, and await them all.  (The one-millisecond sleep between
launches only spaces the dispatch clock readings, which the environment
already carries.) -/
def mainClient (env : ClientEnv) (START_PORT NUM_SPINUPS : Nat) :
    Except String (List (ℚ × ℚ × ℚ)) :=
  promiseAll ((spinupPorts START_PORT NUM_SPINUPS).map
    (fun p => runAsClient env p (p + NUM_SPINUPS) (p + NUM_SPINUPS * 2)))

/-- The timing triple instance p produces when all three transports echo
correctly: each duration is that operation's own finish minus start. -/
def instanceTriple (env : ClientEnv) (NUM_SPINUPS p : Nat) : ℚ × ℚ × ℚ :=
  (env.quicFinish p - env.quicStart p,
   env.httpFinish (p + NUM_SPINUPS) - env.httpStart (p + NUM_SPINUPS),
   env.wsFinish (p + NUM_SPINUPS * 2) - env.wsStart (p + NUM_SPINUPS * 2))

/-- Line 93 again, counted: each runAsClient call performs exactly one
readFileSync of the payload file. -/
def runAsClientReads : Nat := 1

/-- The number of payload-file reads a client-mode run performs: one per
launched instance. -/
def mainClientReadCount (START_PORT NUM_SPINUPS : Nat) : Nat :=
  ((spinupPorts START_PORT NUM_SPINUPS).map (fun _ => runAsClientReads)).sum

/- ===== Array identity model for the in-place sort (lines 183-198) ======== -/

/-- A store of JS arrays of numbers: index = array identity. -/
structure JSArrayStore where
  arrs : List (List ℚ)

/-- Allocating a fresh array (the map calls at lines 192-194): appends the
contents and returns the new identity. -/
def allocArr (st : JSArrayStore) (contents : List ℚ) : JSArrayStore × Nat :=
  (⟨st.arrs ++ [contents]⟩, st.arrs.length)

/-- Array.prototype.sort (line 184) sorts the receiver in place and returns
the receiver itself: the store entry is overwritten with the sorted contents
and the very same identity is returned. -/
def sortInPlace (st : JSArrayStore) (arrId : Nat) : JSArrayStore × Nat :=
  (⟨st.arrs.set arrId (_sort (st.arrs.getD arrId []))⟩, arrId)

/-- Lines 191-198 with array identity made explicit: allocate the three
projected columns, then sort each via _sort.  Returns the final store, the
identities bound to quicResponses/httpResponses/wsResponses, and the
identities bound to the three sorted bindings. -/
def formatTimingsArrays (timings : List (ℚ × ℚ × ℚ)) :
    JSArrayStore × (Nat × Nat × Nat) × (Nat × Nat × Nat) :=
  let st0 : JSArrayStore := ⟨[]⟩
  let a1 := allocArr st0 (timings.map (fun t => t.1))
  let a2 := allocArr a1.1 (timings.map (fun t => t.2.1))
  let a3 := allocArr a2.1 (timings.map (fun t => t.2.2))
  let s1 := sortInPlace a3.1 a1.2
  let s2 := sortInPlace s1.1 a2.2
  let s3 := sortInPlace s2.1 a3.2
  (s3.1, (a1.2, a2.2, a3.2), (s1.2, s2.2, s3.2))

/- ===================== Shared lemmas ===================================== -/

theorem decideLE_trans (a b c : ℚ) (hab : decide (a ≤ b) = true)
    (hbc : decide (b ≤ c) = true) : decide (a ≤ c) = true := by
  simp only [decide_eq_true_eq] at *
  exact le_trans hab hbc

theorem decideLE_total (a b : ℚ) : decide (a ≤ b) || decide (b ≤ a) := by
  simpa using le_total a b

theorem sort_sorted (nums : List ℚ) : (_sort nums).Sorted (· ≤ ·) := by
  have h := @List.sorted_mergeSort ℚ (fun a b => decide (a ≤ b))
    decideLE_trans decideLE_total nums
  exact h.imp (by simp)

theorem sort_perm (nums : List ℚ) : (_sort nums).Perm nums :=
  List.mergeSort_perm nums _

theorem sort_length (nums : List ℚ) : (_sort nums).length = nums.length :=
  (sort_perm nums).length_eq

theorem decideFstLE_trans (a b c : ℚ × ℕ) (hab : decide (a.1 ≤ b.1) = true)
    (hbc : decide (b.1 ≤ c.1) = true) : decide (a.1 ≤ c.1) = true := by
  simp only [decide_eq_true_eq] at *
  exact le_trans hab hbc

theorem decideFstLE_total (a b : ℚ × ℕ) : decide (a.1 ≤ b.1) || decide (b.1 ≤ a.1) := by
  simpa using le_total a.1 b.1

theorem sort_stable_filter (pairs : List (ℚ × ℕ)) (v : ℚ) :
    List.Sublist (pairs.filter (fun x => decide (x.1 = v))) (sortTagged pairs) := by
  have hpair : (pairs.filter (fun x => decide (x.1 = v))).Pairwise
      (fun a b : ℚ × ℕ => decide (a.1 ≤ b.1) = true) := by
    apply List.pairwise_of_forall_mem_list
    intro a ha b hb
    rw [List.mem_filter] at ha hb
    have h1 : a.1 = v := by simpa using ha.2
    have h2 : b.1 = v := by simpa using hb.2
    simp [h1, h2]
  exact @List.sublist_mergeSort (ℚ × ℕ) (fun a b => decide (a.1 ≤ b.1)) pairs
    decideFstLE_trans decideFstLE_total _ hpair (List.filter_sublist pairs)

/- ===================== C1 ================================================ -/

/-- C1: the claim states that instance i is assigned fastPort = basePort + i
(and the two shifted ports) for every basePort, with all 3 * instanceCount
ports pairwise distinct.  The line 262 loop starts at the literal 8000
instead of START_PORT, so with START_PORT = 9000 and NUM_SPINUPS = 1 the run
launches 1001 instances (not 1), instance 0 gets fastPort 8000 (not 9000),
and instance 0's request-reply port 8001 equals instance 1's fast port 8001 —
two logical servers bind the same port. -/
theorem main_loop_ignores_start_port :
    (mainPortTriples 9000 1).length = 1001 ∧
    (mainPortTriples 9000 1)[0]? = some (8000, 8001, 8002) ∧
    (mainPortTriples 9000 1)[1]? = some (8001, 8002, 8003) := by
  refine ⟨?_, ?_, ?_⟩
  · simp [mainPortTriples, spinupPorts]
  · rw [mainPortTriples, List.getElem?_map, spinupPorts,
      List.getElem?_range' 8000 1 (show 0 < 9000 + 1 - 8000 by norm_num)]
    rfl
  · rw [mainPortTriples, List.getElem?_map, spinupPorts,
      List.getElem?_range' 8000 1 (show 1 < 9000 + 1 - 8000 by norm_num)]
    rfl

/- ===================== C4 ================================================ -/

/-- C4: the median the statistics engine computes over a non-empty sample is
exactly the element at index floor(n / 2) of the ascending-sorted sequence,
which for even n is the upper-middle element: on sorted [10, 20, 30, 40] the
median is 30. -/
theorem median_upper_middle (d : List ℚ) (hd : d ≠ []) :
    (∃ m, _calculateMedian (_sort d) = some m ∧ (_sort d)[d.length / 2]? = some m) ∧
    _calculateMedian (_sort [10, 20, 30, 40]) = some 30 := by
  constructor
  · have hlen : (_sort d).length = d.length := sort_length d
    have hlt : d.length / 2 < d.length :=
      Nat.div_lt_self (List.length_pos.mpr hd) one_lt_two
    have hlt' : d.length / 2 < (_sort d).length := by rw [hlen]; exact hlt
    refine ⟨(_sort d)[d.length / 2], ?_, ?_⟩
    · rw [_calculateMedian, hlen]
      exact List.getElem?_eq_getElem hlt'
    · exact List.getElem?_eq_getElem hlt'
  · have hsorted : _sort [10, 20, 30, 40] = [10, 20, 30, 40] :=
      List.mergeSort_of_sorted (by decide)
    rw [_calculateMedian, hsorted]
    rfl

/-- Witness for C4 at the concrete sample [1, 2]. -/
theorem median_upper_middle_witness :
    (∃ m, _calculateMedian (_sort [(1 : ℚ), 2]) = some m ∧
      (_sort [(1 : ℚ), 2])[([(1 : ℚ), 2] : List ℚ).length / 2]? = some m) ∧
    _calculateMedian (_sort [10, 20, 30, 40]) = some 30 :=
  median_upper_middle [1, 2] (by decide)

/- ===================== C5 ================================================ -/

/-- C5: the sorted duration sequence is non-decreasing and a permutation of
the unsorted input, and the sort is stable under ties: tagging each number
with its original position and comparing only the numbers, the entries whose
number equals any fixed value keep their relative order (they form a
subsequence of the sorted output). -/
theorem sort_nondecreasing_perm_stable (nums : List ℚ) (pairs : List (ℚ × ℕ)) (v : ℚ) :
    (_sort nums).Sorted (· ≤ ·) ∧ (_sort nums).Perm nums ∧
    List.Sublist (pairs.filter (fun x => decide (x.1 = v))) (sortTagged pairs) :=
  ⟨sort_sorted nums, sort_perm nums, sort_stable_filter pairs v⟩

/- ===================== C10 =============================================== -/

/-- C10: Array.prototype.sort mutates its receiver and returns the very same
array, so after the formatting step the identities bound to the sorted names
are the identities of the projected arrays themselves, the projected arrays
now hold the ascending-sorted columns, and every array left in the final
store is sorted — the unsorted per-transport order survives nowhere. -/
theorem sort_mutates_in_place (timings : List (ℚ × ℚ × ℚ)) :
    (formatTimingsArrays timings).2.2 = (formatTimingsArrays timings).2.1 ∧
    (formatTimingsArrays timings).1.arrs =
      [_sort (timings.map (fun t => t.1)),
       _sort (timings.map (fun t => t.2.1)),
       _sort (timings.map (fun t => t.2.2))] ∧
    (∀ arr ∈ (formatTimingsArrays timings).1.arrs, arr.Sorted (· ≤ ·)) := by
  refine ⟨rfl, rfl, ?_⟩
  intro arr harr
  have harrs : (formatTimingsArrays timings).1.arrs =
      [_sort (timings.map (fun t => t.1)),
       _sort (timings.map (fun t => t.2.1)),
       _sort (timings.map (fun t => t.2.2))] := rfl
  rw [harrs] at harr
  simp only [List.mem_cons, List.not_mem_nil, or_false] at harr
  rcases harr with h | h | h <;> (rw [h]; exact sort_sorted _)

/- ===================== Promise lemmas ==================================== -/

theorem promiseAll_map_ok {α β : Type} (f : α → Except String β) (g : α → β)
    (l : List α) (h : ∀ x ∈ l, f x = Except.ok (g x)) :
    promiseAll (l.map f) = Except.ok (l.map g) := by
  induction l with
  | nil => rfl
  | cons a t ih =>
    rw [List.map_cons, List.map_cons, promiseAll, h a (List.mem_cons_self a t),
      ih (fun x hx => h x (List.mem_cons_of_mem a hx))]
    rfl

theorem promiseAll_ok_forall {α : Type} {ps : List (Except String α)} {vs : List α}
    (h : promiseAll ps = Except.ok vs) : ∀ p ∈ ps, ∃ v, p = Except.ok v := by
  induction ps generalizing vs with
  | nil => intro p hp; cases hp
  | cons p t ih =>
    intro q hq
    rcases List.mem_cons.mp hq with h1 | h1
    · subst h1
      cases hp : q with
      | ok v => exact ⟨v, rfl⟩
      | error e => rw [promiseAll, hp] at h; cases h
    · cases hp : p with
      | error e => rw [promiseAll, hp] at h; cases h
      | ok v =>
        rw [promiseAll, hp] at h
        cases hall : promiseAll t with
        | error e => rw [hall] at h; cases h
        | ok vs' => exact ih hall q h1

theorem runAsClient_echo_ok (env : ClientEnv) (NUM_SPINUPS p : Nat)
    (hq : env.quicResp p = runAsClientData env p)
    (hh : env.httpResp (p + NUM_SPINUPS) = runAsClientData env p)
    (hw : env.wsResp (p + NUM_SPINUPS * 2) = runAsClientData env p) :
    runAsClient env p (p + NUM_SPINUPS) (p + NUM_SPINUPS * 2) =
      Except.ok (instanceTriple env NUM_SPINUPS p) := by
  rw [runAsClient]
  simp only [quicPromise, httpPromise, wsPromise, hq, hh, hw, ne_eq,
    not_true_eq_false, if_false, if_neg]
  rfl

/- ===================== C2 ================================================ -/

/-- C2: in client mode against correctly-echoing transports (every response
equals the payload that was sent) and with the clock never running backwards
across an operation, the run fulfils with a sample set holding exactly one
timing triple per launched instance, in launch order (the i-th sample is the
i-th launched instance's triple), and every duration is non-negative. -/
theorem client_samples_ordered_nonneg (env : ClientEnv) (START_PORT NUM_SPINUPS : Nat)
    (_hN : 1 ≤ instancesLaunched START_PORT NUM_SPINUPS)
    (hq : ∀ p, env.quicResp p = env.fsRead (dataFile env.DATA_SIZE))
    (hh : ∀ p, env.httpResp p = env.fsRead (dataFile env.DATA_SIZE))
    (hw : ∀ p, env.wsResp p = env.fsRead (dataFile env.DATA_SIZE))
    (hmq : ∀ p, env.quicStart p ≤ env.quicFinish p)
    (hmh : ∀ p, env.httpStart p ≤ env.httpFinish p)
    (hmw : ∀ p, env.wsStart p ≤ env.wsFinish p) :
    ∃ samples : List (ℚ × ℚ × ℚ),
      mainClient env START_PORT NUM_SPINUPS = Except.ok samples ∧
      samples.length = instancesLaunched START_PORT NUM_SPINUPS ∧
      (∀ i, i < samples.length →
        samples[i]? = some (instanceTriple env NUM_SPINUPS (8000 + i))) ∧
      (∀ trip ∈ samples, 0 ≤ trip.1 ∧ 0 ≤ trip.2.1 ∧ 0 ≤ trip.2.2) := by
  refine ⟨(spinupPorts START_PORT NUM_SPINUPS).map (instanceTriple env NUM_SPINUPS),
    ?_, ?_, ?_, ?_⟩
  · rw [mainClient]
    exact promiseAll_map_ok _ _ _
      (fun p _ => runAsClient_echo_ok env NUM_SPINUPS p (hq p) (hh _) (hw _))
  · simp [spinupPorts, instancesLaunched]
  · intro i hi
    have hc : i < START_PORT + NUM_SPINUPS - 8000 := by
      simpa [spinupPorts] using hi
    rw [List.getElem?_map, spinupPorts, List.getElem?_range' 8000 1 hc]
    simp
  · intro trip htrip
    rcases List.mem_map.mp htrip with ⟨p, _, rfl⟩
    exact ⟨sub_nonneg.mpr (hmq p), sub_nonneg.mpr (hmh _), sub_nonneg.mpr (hmw _)⟩

/-- A concrete client environment in which every transport echoes: the
payload file holds ping, every response is ping, and every operation
finishes one millisecond after its dispatch. -/
def echoEnv : ClientEnv :=
  ⟨fun _ => "ping", "0",
   fun _ => "ping", fun _ => "ping", fun _ => "ping",
   fun _ => 0, fun _ => 1, fun _ => 0, fun _ => 1, fun _ => 0, fun _ => 1⟩

/-- Witness for C2 at the concrete echoing environment, two instances. -/
theorem client_samples_ordered_nonneg_witness :
    ∃ samples : List (ℚ × ℚ × ℚ),
      mainClient echoEnv 8000 2 = Except.ok samples ∧
      samples.length = instancesLaunched 8000 2 ∧
      (∀ i, i < samples.length →
        samples[i]? = some (instanceTriple echoEnv 2 (8000 + i))) ∧
      (∀ trip ∈ samples, 0 ≤ trip.1 ∧ 0 ≤ trip.2.1 ∧ 0 ≤ trip.2.2) :=
  client_samples_ordered_nonneg echoEnv 8000 2 (by decide)
    (fun _ => rfl) (fun _ => rfl) (fun _ => rfl)
    (fun _ => by norm_num [echoEnv]) (fun _ => by norm_num [echoEnv])
    (fun _ => by norm_num [echoEnv])

/- ===================== C6 ================================================ -/

/-- C6: if a transport delivers a response that differs from the payload that
was sent, that operation settles rejected with its received wrong response
message (the operation sends exactly once, so there is no retry), the
instance's Promise.all rejects, and the whole run never fulfils with a sample
set — the mismatched operation's duration is never delivered as a sample. -/
theorem mismatch_fails_run (env : ClientEnv) (START_PORT NUM_SPINUPS p₀ : Nat)
    (hp : p₀ ∈ spinupPorts START_PORT NUM_SPINUPS)
    (hbad : env.quicResp p₀ ≠ runAsClientData env p₀ ∨
            env.httpResp (p₀ + NUM_SPINUPS) ≠ runAsClientData env p₀ ∨
            env.wsResp (p₀ + NUM_SPINUPS * 2) ≠ runAsClientData env p₀) :
    (env.quicResp p₀ ≠ runAsClientData env p₀ →
      quicPromise env (runAsClientData env p₀) p₀ =
        Except.error "QUIC received wrong response") ∧
    (env.httpResp (p₀ + NUM_SPINUPS) ≠ runAsClientData env p₀ →
      httpPromise env (runAsClientData env p₀) (p₀ + NUM_SPINUPS) =
        Except.error "HTTP received wrong response") ∧
    (env.wsResp (p₀ + NUM_SPINUPS * 2) ≠ runAsClientData env p₀ →
      wsPromise env (runAsClientData env p₀) (p₀ + NUM_SPINUPS * 2) =
        Except.error "WS received wrong response") ∧
    (∃ e, runAsClient env p₀ (p₀ + NUM_SPINUPS) (p₀ + NUM_SPINUPS * 2) =
      Except.error e) ∧
    (∀ samples, mainClient env START_PORT NUM_SPINUPS ≠ Except.ok samples) := by
  have herr : ∃ e, runAsClient env p₀ (p₀ + NUM_SPINUPS) (p₀ + NUM_SPINUPS * 2) =
      Except.error e := by
    rw [runAsClient]
    cases hq : quicPromise env (runAsClientData env p₀) p₀ with
    | error e => exact ⟨e, rfl⟩
    | ok vq =>
      cases hh : httpPromise env (runAsClientData env p₀) (p₀ + NUM_SPINUPS) with
      | error e => exact ⟨e, rfl⟩
      | ok vh =>
        cases hw : wsPromise env (runAsClientData env p₀) (p₀ + NUM_SPINUPS * 2) with
        | error e => exact ⟨e, rfl⟩
        | ok vw =>
          exfalso
          rcases hbad with hb | hb | hb
          · rw [quicPromise, if_pos hb] at hq; cases hq
          · rw [httpPromise, if_pos hb] at hh; cases hh
          · rw [wsPromise, if_pos hb] at hw; cases hw
  refine ⟨fun hb => by rw [quicPromise, if_pos hb],
          fun hb => by rw [httpPromise, if_pos hb],
          fun hb => by rw [wsPromise, if_pos hb],
          herr, ?_⟩
  intro samples hok
  rcases herr with ⟨e, he⟩
  have hmem : runAsClient env p₀ (p₀ + NUM_SPINUPS) (p₀ + NUM_SPINUPS * 2) ∈
      (spinupPorts START_PORT NUM_SPINUPS).map
        (fun p => runAsClient env p (p + NUM_SPINUPS) (p + NUM_SPINUPS * 2)) :=
    List.mem_map_of_mem _ hp
  rw [mainClient] at hok
  rcases promiseAll_ok_forall hok _ hmem with ⟨v, hv⟩
  rw [he] at hv
  cases hv

/-- A concrete client environment in which the quic transport responds with
the wrong payload while the other two echo correctly. -/
def badQuicEnv : ClientEnv :=
  ⟨fun _ => "ping", "0",
   fun _ => "pong", fun _ => "ping", fun _ => "ping",
   fun _ => 0, fun _ => 1, fun _ => 0, fun _ => 1, fun _ => 0, fun _ => 1⟩

/-- Witness for C6 at the concrete mismatching environment, one instance. -/
theorem mismatch_fails_run_witness :
    (badQuicEnv.quicResp 8000 ≠ runAsClientData badQuicEnv 8000 →
      quicPromise badQuicEnv (runAsClientData badQuicEnv 8000) 8000 =
        Except.error "QUIC received wrong response") ∧
    (badQuicEnv.httpResp (8000 + 1) ≠ runAsClientData badQuicEnv 8000 →
      httpPromise badQuicEnv (runAsClientData badQuicEnv 8000) (8000 + 1) =
        Except.error "HTTP received wrong response") ∧
    (badQuicEnv.wsResp (8000 + 1 * 2) ≠ runAsClientData badQuicEnv 8000 →
      wsPromise badQuicEnv (runAsClientData badQuicEnv 8000) (8000 + 1 * 2) =
        Except.error "WS received wrong response") ∧
    (∃ e, runAsClient badQuicEnv 8000 (8000 + 1) (8000 + 1 * 2) =
      Except.error e) ∧
    (∀ samples, mainClient badQuicEnv 8000 1 ≠ Except.ok samples) :=
  mismatch_fails_run badQuicEnv 8000 1 8000 (by decide) (Or.inl (by decide))

/- ===================== Mean and variance lemmas ========================== -/

theorem foldl_add_eq (x : ℚ) (xs : List ℚ) :
    xs.foldl (fun sum num => sum + num) x = x + xs.sum := by
  induction xs generalizing x with
  | nil => simp
  | cons a t ih => rw [List.foldl_cons, ih, List.sum_cons]; ring

theorem mean_eq_sum_div {nums : List ℚ} (h : nums ≠ []) :
    _calculateMean nums = some (nums.sum / nums.length) := by
  cases nums with
  | nil => exact absurd rfl h
  | cons a t =>
    rw [_calculateMean, jsReduce1, foldl_add_eq]
    simp [List.sum_cons]

theorem foldl_add_map (g : ℚ → ℚ) (a : ℚ) (l : List ℚ) :
    l.foldl (fun acc num => g num + acc) a = a + (l.map g).sum := by
  induction l generalizing a with
  | nil => simp
  | cons b t ih => rw [List.foldl_cons, ih, List.map_cons, List.sum_cons]; ring

theorem variance_eq_sum_sq (mean : ℚ) (nums : List ℚ) :
    _calculateVariance mean nums =
      ((nums.map (fun num => (num - mean) ^ 2)).sum) / nums.length := by
  rw [_calculateVariance, foldl_add_map, zero_add]

theorem sum_sq_nonneg (mean : ℚ) (nums : List ℚ) :
    0 ≤ ((nums.map (fun num => (num - mean) ^ 2)).sum) := by
  apply List.sum_nonneg
  intro x hx
  rcases List.mem_map.mp hx with ⟨y, _, rfl⟩
  positivity

theorem sum_nonneg_eq_zero_iff (l : List ℚ) (h : ∀ x ∈ l, 0 ≤ x) :
    l.sum = 0 ↔ ∀ x ∈ l, x = 0 := by
  induction l with
  | nil => simp
  | cons a t ih =>
    rw [List.sum_cons]
    have ha : 0 ≤ a := h a (List.mem_cons_self a t)
    have ht : 0 ≤ t.sum := List.sum_nonneg (fun x hx => h x (List.mem_cons_of_mem a hx))
    rw [add_eq_zero_iff_of_nonneg ha ht, ih (fun x hx => h x (List.mem_cons_of_mem a hx))]
    simp

theorem variance_zero_iff {nums : List ℚ} (m : ℚ) (h : nums ≠ []) :
    _calculateVariance m nums = 0 ↔ ∀ x ∈ nums, x = m := by
  have hlen : (nums.length : ℚ) ≠ 0 := by
    simpa using h
  rw [variance_eq_sum_sq, div_eq_zero_iff]
  constructor
  · rintro (hs | hl)
    · intro x hx
      have := (sum_nonneg_eq_zero_iff _ (fun y hy => by
        rcases List.mem_map.mp hy with ⟨z, _, rfl⟩
        positivity)).mp hs ((x - m) ^ 2) (List.mem_map_of_mem _ hx)
      have hx0 : x - m = 0 := by
        exact pow_eq_zero_iff (n := 2) (by norm_num) |>.mp this
      linarith
    · exact absurd hl hlen
  · intro hall
    left
    apply (sum_nonneg_eq_zero_iff _ (fun y hy => by
      rcases List.mem_map.mp hy with ⟨z, _, rfl⟩
      positivity)).mpr
    intro y hy
    rcases List.mem_map.mp hy with ⟨z, hz, rfl⟩
    rw [hall z hz]
    ring

theorem mean_of_constant {nums : List ℚ} {c : ℚ} (h : nums ≠ [])
    (hall : ∀ x ∈ nums, x = c) : nums.sum / nums.length = c := by
  have hlen : (nums.length : ℚ) ≠ 0 := by
    simpa using h
  rw [List.sum_eq_card_nsmul nums c hall, nsmul_eq_mul]
  field_simp

/- ===================== C7 ================================================ -/

/-- C7: over a non-empty sample the standard deviation is the square root of
the population variance (the mean of squared deviations from the arithmetic
mean); it is always non-negative, and it is zero exactly when all durations
in the sample are equal. -/
theorem stddev_sqrt_variance (nums : List ℚ) (hne : nums ≠ []) :
    ∃ m s, _calculateMean nums = some m ∧
      _calculateStdDev nums = some s ∧
      s = Real.sqrt ((_calculateVariance m nums : ℚ) : ℝ) ∧
      _calculateVariance m nums =
        ((nums.map (fun num => (num - m) ^ 2)).sum) / nums.length ∧
      0 ≤ s ∧
      (s = 0 ↔ ∀ x ∈ nums, ∀ y ∈ nums, x = y) := by
  refine ⟨nums.sum / nums.length, _, mean_eq_sum_div hne, ?_, rfl, variance_eq_sum_sq _ _, Real.sqrt_nonneg _, ?_⟩
  · rw [_calculateStdDev, mean_eq_sum_div hne, Option.map_some']
  · set m : ℚ := nums.sum / nums.length with hm
    have hv0 : 0 ≤ _calculateVariance m nums := by
      rw [variance_eq_sum_sq]
      apply div_nonneg (sum_sq_nonneg m nums) (by positivity)
    constructor
    · intro hzero
      have hle : ((_calculateVariance m nums : ℚ) : ℝ) ≤ 0 := Real.sqrt_eq_zero'.mp hzero
      have hq0 : _calculateVariance m nums = 0 := le_antisymm (by exact_mod_cast hle) hv0
      have hallm : ∀ x ∈ nums, x = m := (variance_zero_iff m hne).mp hq0
      intro x hx y hy
      rw [hallm x hx, hallm y hy]
    · intro hall
      have hc : ∀ x ∈ nums, x = m := by
        rcases List.exists_mem_of_ne_nil nums hne with ⟨a, ha⟩
        have hac : ∀ x ∈ nums, x = a := fun x hx => hall x hx a ha
        have hma : m = a := mean_of_constant hne hac
        intro x hx
        rw [hac x hx, hma]
      have hq0 : _calculateVariance m nums = 0 := (variance_zero_iff m hne).mpr hc
      rw [hq0]
      simp

/-- Witness for C7 at the concrete sample [3, 3]. -/
theorem stddev_sqrt_variance_witness :
    ∃ m s, _calculateMean [(3 : ℚ), 3] = some m ∧
      _calculateStdDev [(3 : ℚ), 3] = some s ∧
      s = Real.sqrt ((_calculateVariance m [(3 : ℚ), 3] : ℚ) : ℝ) ∧
      _calculateVariance m [(3 : ℚ), 3] =
        (([(3 : ℚ), 3].map (fun num => (num - m) ^ 2)).sum) / ([(3 : ℚ), 3] : List ℚ).length ∧
      0 ≤ s ∧
      (s = 0 ↔ ∀ x ∈ [(3 : ℚ), 3], ∀ y ∈ [(3 : ℚ), 3], x = y) :=
  stddev_sqrt_variance [3, 3] (by decide)

/- ===================== Sorted-list bounds ================================ -/

theorem sorted_head_le {s : List ℚ} (hs : s.Sorted (· ≤ ·)) {a x : ℚ}
    (ha : s.head? = some a) (hx : x ∈ s) : a ≤ x := by
  cases s with
  | nil => cases hx
  | cons b t =>
    have hab : b = a := by simpa using ha
    subst hab
    rcases List.mem_cons.mp hx with h | h
    · exact le_of_eq h.symm
    · exact (List.sorted_cons.mp hs).1 x h

theorem sorted_le_last {s : List ℚ} (hs : s.Sorted (· ≤ ·)) {b x : ℚ}
    (hb : s.getLast? = some b) (hx : x ∈ s) : x ≤ b := by
  induction s with
  | nil => cases hx
  | cons a t ih =>
    cases t with
    | nil =>
      have hab : b = a := by simpa using hb.symm
      have hxa : x = a := by simpa using hx
      rw [hxa, hab]
    | cons c r =>
      rw [List.getLast?_cons_cons] at hb
      rcases List.mem_cons.mp hx with h | h
      · subst h
        have hbmem : b ∈ c :: r := List.mem_of_getLast?_eq_some hb
        exact (List.sorted_cons.mp hs).1 b hbmem
      · exact ih (List.sorted_cons.mp hs).2 hb h

theorem mean_between {s : List ℚ} (hne : s ≠ []) {a b : ℚ}
    (hlo : ∀ x ∈ s, a ≤ x) (hhi : ∀ x ∈ s, x ≤ b) :
    a ≤ s.sum / s.length ∧ s.sum / s.length ≤ b := by
  have hlen : 0 < (s.length : ℚ) := by
    simpa using List.length_pos.mpr hne
  have h1 : s.length • a ≤ s.sum := List.card_nsmul_le_sum s a hlo
  have h2 : s.sum ≤ s.length • b := List.sum_le_card_nsmul s b hhi
  rw [nsmul_eq_mul] at h1 h2
  constructor
  · rw [le_div_iff₀ hlen, mul_comm]
    exact h1
  · rw [div_le_iff₀ hlen, mul_comm]
    exact h2

/- ===================== C8 ================================================ -/

/-- C8: over a non-empty sample, low is the first and high is the last
element of the ascending-sorted sequence, and both the median and the
arithmetic mean lie within the closed interval from low to high. -/
theorem low_high_bound_median_mean (d : List ℚ) (hd : d ≠ []) :
    ∃ lo hi med m,
      _calculateLow (_sort d) = some lo ∧
      _calculateHigh (_sort d) = some hi ∧
      _calculateMedian (_sort d) = some med ∧
      _calculateMean (_sort d) = some m ∧
      (_sort d).head? = some lo ∧
      (_sort d).getLast? = some hi ∧
      lo ≤ med ∧ med ≤ hi ∧ lo ≤ m ∧ m ≤ hi := by
  set s := _sort d with hsdef
  have hsorted : s.Sorted (· ≤ ·) := sort_sorted d
  have hne : s ≠ [] := by
    intro h0
    apply hd
    have hlen := sort_length d
    rw [hsdef] at h0
    rw [h0] at hlen
    exact List.length_eq_zero.mp hlen.symm
  have hpos : 0 < s.length := List.length_pos.mpr hne
  have hlo : _calculateLow s = s.head? := by
    rw [_calculateLow, List.head?_eq_getElem?]
  have hhi : _calculateHigh s = s.getLast? := by
    rw [_calculateHigh, List.getLast?_eq_getElem?]
  rcases List.exists_mem_of_ne_nil s hne with ⟨w, hwmem⟩
  cases hheads : s.head? with
  | none => rw [List.head?_eq_none_iff] at hheads; exact absurd hheads hne
  | some lo =>
  cases hlasts : s.getLast? with
  | none => rw [List.getLast?_eq_none_iff] at hlasts; exact absurd hlasts hne
  | some hi =>
  have hmed : s.length / 2 < s.length := Nat.div_lt_self hpos one_lt_two
  have hmedeq : _calculateMedian s = some s[s.length / 2] := by
    rw [_calculateMedian]
    exact List.getElem?_eq_getElem hmed
  have hmedmem : s[s.length / 2] ∈ s := List.getElem_mem hmed
  have halllo : ∀ x ∈ s, lo ≤ x := fun x hx => sorted_head_le hsorted hheads hx
  have hallhi : ∀ x ∈ s, x ≤ hi := fun x hx => sorted_le_last hsorted hlasts hx
  have hmean := mean_between hne halllo hallhi
  refine ⟨lo, hi, s[s.length / 2], s.sum / s.length,
    by rw [hlo, hheads], by rw [hhi, hlasts], hmedeq, mean_eq_sum_div hne,
    rfl, rfl,
    halllo _ hmedmem, hallhi _ hmedmem, hmean.1, hmean.2⟩

/-- Witness for C8 at the concrete sample [2, 1, 3]. -/
theorem low_high_bound_median_mean_witness :
    ∃ lo hi med m,
      _calculateLow (_sort [(2 : ℚ), 1, 3]) = some lo ∧
      _calculateHigh (_sort [(2 : ℚ), 1, 3]) = some hi ∧
      _calculateMedian (_sort [(2 : ℚ), 1, 3]) = some med ∧
      _calculateMean (_sort [(2 : ℚ), 1, 3]) = some m ∧
      (_sort [(2 : ℚ), 1, 3]).head? = some lo ∧
      (_sort [(2 : ℚ), 1, 3]).getLast? = some hi ∧
      lo ≤ med ∧ med ≤ hi ∧ lo ≤ m ∧ m ≤ hi :=
  low_high_bound_median_mean [2, 1, 3] (by decide)

/- ===================== C9 ================================================ -/

theorem statsOf_of_ne_nil {l : List ℚ} (h : l ≠ []) : ∃ ts, statsOf l = some ts := by
  have hpos : 0 < l.length := List.length_pos.mpr h
  have hmean : _calculateMean l = some (l.sum / l.length) := mean_eq_sum_div h
  have hmed : l.length / 2 < l.length := Nat.div_lt_self hpos one_lt_two
  have hhigh : l.length - 1 < l.length := Nat.sub_lt hpos one_pos
  have h1 : _calculateMedian l = some l[l.length / 2] := by
    rw [_calculateMedian]
    exact List.getElem?_eq_getElem hmed
  have h2 : _calculateHigh l = some l[l.length - 1] := by
    rw [_calculateHigh]
    exact List.getElem?_eq_getElem hhigh
  have h3 : _calculateLow l = some l[0] := by
    rw [_calculateLow]
    exact List.getElem?_eq_getElem hpos
  have h4 : _calculateStdDev l =
      some (Real.sqrt ((_calculateVariance (l.sum / l.length) l : ℚ) : ℝ)) := by
    rw [_calculateStdDev, hmean, Option.map_some']
  exact ⟨_, by rw [statsOf]; rw [hmean, h1, h2, h3, h4]; rfl⟩

/-- C9: the mean of an empty duration sequence is undefined (reduce without
an initial value throws on an empty array), an empty sample set reaching the
formatting step therefore produces no report, and conversely every non-empty
sample set produces one — non-emptiness is the implicit precondition of the
statistics engine. -/
theorem empty_sample_crashes :
    _calculateMean [] = none ∧
    _formatTimings [] = none ∧
    ∀ t : List (ℚ × ℚ × ℚ), t ≠ [] → ∃ st, _formatTimings t = some st := by
  refine ⟨rfl, ?_, ?_⟩
  · rw [_formatTimings]
    simp [statsOf, _calculateMean, jsReduce1, _sort, jsSortBy]
  · intro t ht
    have hq : _sort (t.map (fun x => x.1)) ≠ [] := by
      intro h0
      have := sort_length (t.map (fun x => x.1))
      rw [h0] at this
      simp only [List.length_nil] at this
      exact ht (by simpa using this.symm)
    have hh : _sort (t.map (fun x => x.2.1)) ≠ [] := by
      intro h0
      have := sort_length (t.map (fun x => x.2.1))
      rw [h0] at this
      simp only [List.length_nil] at this
      exact ht (by simpa using this.symm)
    have hw : _sort (t.map (fun x => x.2.2)) ≠ [] := by
      intro h0
      have := sort_length (t.map (fun x => x.2.2))
      rw [h0] at this
      simp only [List.length_nil] at this
      exact ht (by simpa using this.symm)
    rcases statsOf_of_ne_nil hq with ⟨q, hq'⟩
    rcases statsOf_of_ne_nil hh with ⟨h, hh'⟩
    rcases statsOf_of_ne_nil hw with ⟨w, hw'⟩
    refine ⟨(q, h, w), ?_⟩
    rw [_formatTimings]
    rw [hq', hh', hw']
    rfl

/-- Witness for C9 at the concrete one-sample set [(1, 2, 3)]. -/
theorem empty_sample_crashes_witness :
    _calculateMean [] = none ∧
    _formatTimings [] = none ∧
    ∃ st, _formatTimings [((1 : ℚ), (2 : ℚ), (3 : ℚ))] = some st :=
  ⟨empty_sample_crashes.1, empty_sample_crashes.2.1,
   empty_sample_crashes.2.2 [(1, 2, 3)] (by decide)⟩

/- ===================== C3 ================================================ -/

/-- C3 counterexample: the payload file is read once per runAsClient call
(line 93 sits inside runAsClient), so a client-mode run with two instances
reads the payload file twice — not exactly once per process as claimed. -/
theorem payload_not_read_once :
    mainClientReadCount 8000 2 = 2 ∧ mainClientReadCount 8000 2 ≠ 1 := by
  constructor <;> decide

/-- C3 amended: the payload is loaded once per launched instance, inside that
instance's runAsClient call; every instance reads the same file path with the
same encoding, so with the file system fixed for the run all instances send
the identical payload. -/
theorem payload_read_per_instance (START_PORT NUM_SPINUPS : Nat)
    (env : ClientEnv) (p q : Nat) :
    mainClientReadCount START_PORT NUM_SPINUPS =
      instancesLaunched START_PORT NUM_SPINUPS ∧
    runAsClientData env p = runAsClientData env q := by
  constructor
  · rw [mainClientReadCount, instancesLaunched]
    have hmap : ∀ l : List Nat, (l.map (fun _ => runAsClientReads)).sum = l.length := by
      intro l
      induction l with
      | nil => rfl
      | cons a t ih => simp [ih, runAsClientReads, Nat.add_comm]
    rw [hmap]
    simp [spinupPorts]
  · rfl

end SpeedComparison
